import Mathlib

/-!
Verification of the foggle market-data ingestion core against its
natural-language specification.  Each Python function named in the claims is
shallowly embedded as an executable Lean definition:

* src/src/exchanges/hyperliquid/websocket_manager.py  (WS namespace)
* src/src/exchanges/hyperliquid/api.py                (Api namespace)
* src/src/exchanges/hyperliquid/hl.py                 (HL namespace)
* src/src/store/timescaledb/db.py                     (DB namespace)

Python callbacks are modelled as opaque numeric handles; asyncio tasks are
modelled by explicit interleaving (a step relation plus schedules); database
tables are lists of rows with the conflict clauses of the INSERT statements
made explicit; Python floats are modelled as exact rationals (no rounding
behaviour is at issue in any claim); raised exceptions are Except/Option
error values.
-/

namespace Foggle

/-- Exact-value model of a Python float: a fraction with positive
denominator (by construction).  The claims only parse, pass through,
compare and sign-test these numbers — no arithmetic whose rounding could
matter — so exact fractions model the float values faithfully.  Value
equality (Python `==`, SQL numeric equality) is `valEq`; the derived
structural equality is only used to state that two values were built the
same way. -/
structure PyFloat where
  num : Int
  den : Nat
deriving DecidableEq, Repr

namespace PyFloat

/-- Numeric value equality by cross-multiplication. -/
def valEq (a b : PyFloat) : Bool := a.num * (b.den : Int) == b.num * (a.den : Int)

def ofInt (n : Int) : PyFloat := ⟨n, 1⟩

/-- Sign test `0 <= x` (denominators are positive). -/
def nonneg (a : PyFloat) : Bool := 0 ≤ a.num

end PyFloat

namespace WS

/-- Wire subscription payloads, one constructor per `type` value accepted by
the mapping in `subscription_to_identifier` (websocket_manager.py:12). -/
inductive Subscription where
  | allMids
  | l2Book (coin : String)
  | trades (coin : String)
  | userEvents
  | userFills (user : String)
  | candle (coin : String) (interval : String)
  | orderUpdates
  | userFundings (user : String)
  | userNonFundingLedgerUpdates (user : String)
  | webData2 (user : String)
deriving DecidableEq, Repr

/-- websocket_manager.py:12-26.  Canonical topic identifier of a
subscription: the type name, joined with the lower-cased coin/user (and the
interval for candles). -/
def subscription_to_identifier : Subscription → String
  | .allMids => "allMids"
  | .l2Book c => "l2Book:" ++ c.toLower
  | .trades c => "trades:" ++ c.toLower
  | .userEvents => "userEvents"
  | .userFills u => "userFills:" ++ u.toLower
  | .candle c i => "candle:" ++ c.toLower ++ "," ++ i
  | .orderUpdates => "orderUpdates"
  | .userFundings u => "userFundings:" ++ u.toLower
  | .userNonFundingLedgerUpdates u => "userNonFundingLedgerUpdates:" ++ u.toLower
  | .webData2 u => "webData2:" ++ u.toLower

/-- A registered `(callback, subscription_id)` pair
(websocket_manager.py:10).  The Python callback object is modelled by an
opaque numeric handle. -/
structure ActiveSubscription where
  callback : Nat
  subscription_id : Nat
deriving DecidableEq, Repr

/-- Mutable state of `WebsocketManager` (websocket_manager.py:52-63).  The
`active_subscriptions` defaultdict is an association list whose lookup
defaults to the empty list. -/
structure WSState where
  subscription_id_counter : Nat
  ws_ready : Bool
  queued_subscriptions : List (Subscription × ActiveSubscription)
  active_subscriptions : List (String × List ActiveSubscription)
deriving DecidableEq, Repr

/-- Read access to the `active_subscriptions` defaultdict: a missing key
reads as the empty list. -/
def getActive (st : WSState) (ident : String) : List ActiveSubscription :=
  match st.active_subscriptions.find? (fun e => e.1 == ident) with
  | some e => e.2
  | none => []

/-- Write one key of the `active_subscriptions` map. -/
def setPairs (m : List (String × List ActiveSubscription)) (ident : String)
    (l : List ActiveSubscription) : List (String × List ActiveSubscription) :=
  match m with
  | [] => [(ident, l)]
  | e :: rest => if e.1 == ident then (ident, l) :: rest else e :: setPairs rest ident l

def setActive (st : WSState) (ident : String) (l : List ActiveSubscription) : WSState :=
  { st with active_subscriptions := setPairs st.active_subscriptions ident l }

/-- Outbound control frames written to the socket. -/
inductive WireMsg where
  | subscribeMsg (sub : Subscription)
  | unsubscribeMsg (sub : Subscription)
deriving DecidableEq, Repr

/-- Result of one `subscribe`/`unsubscribe` call: the state after the call
(mutations performed before a raise persist, as in Python), the wire frames
written, and either the returned value or the text of the raised error. -/
structure CallOutcome (α : Type) where
  state : WSState
  sent : List WireMsg
  result : Except String α
deriving Repr

/-- websocket_manager.py:153-175, `WebsocketManager.subscribe`.  Allocates a
fresh id when none is supplied; while the transport is not ready the
subscription is appended to the queue; while ready an exclusive identifier
with an existing registration is a raise performed before any registration
mutation, otherwise the callback is registered and the subscribe frame
sent. -/
def subscribe (st : WSState) (sub : Subscription) (cb : Nat) (sid? : Option Nat) :
    CallOutcome Nat :=
  let stsid : WSState × Nat :=
    match sid? with
    | none =>
      let c := st.subscription_id_counter + 1
      ({ st with subscription_id_counter := c }, c)
    | some sid => (st, sid)
  let st := stsid.1
  let sid := stsid.2
  if st.ws_ready = false then
    { state := { st with queued_subscriptions :=
        st.queued_subscriptions ++ [(sub, ⟨cb, sid⟩)] },
      sent := [], result := .ok sid }
  else
    let ident := subscription_to_identifier sub
    if (ident == "userEvents" || ident == "orderUpdates") && !(getActive st ident).isEmpty then
      { state := st, sent := [],
        result := .error ("Cannot subscribe to " ++ ident ++ " multiple times") }
    else
      { state := setActive st ident (getActive st ident ++ [⟨cb, sid⟩]),
        sent := [WireMsg.subscribeMsg sub], result := .ok sid }

/-- websocket_manager.py:177-190, `WebsocketManager.unsubscribe`.  Raises
while the transport is not ready; otherwise removes every pair bearing the
id, sends the unsubscribe frame exactly when the remaining list is empty,
and returns whether anything was removed. -/
def unsubscribe (st : WSState) (sub : Subscription) (sid : Nat) : CallOutcome Bool :=
  if st.ws_ready = false then
    { state := st, sent := [],
      result := .error "Cannot unsubscribe before websocket connected" }
  else
    let ident := subscription_to_identifier sub
    let old := getActive st ident
    let lnew := old.filter (fun a => a.subscription_id != sid)
    let msgs := if lnew.isEmpty then [WireMsg.unsubscribeMsg sub] else []
    { state := setActive st ident lnew, sent := msgs,
      result := .ok (old.length != lnew.length) }

/-- Inbound frames, one constructor per `channel` handled by
`ws_msg_to_identifier` (websocket_manager.py:28-50); `established` is the
textual connect acknowledgement handled before JSON decoding
(websocket_manager.py:130) and `unknown` any other channel. -/
inductive WsMsg where
  | established
  | pong
  | allMids
  | l2Book (coin : String)
  | tradesMsg (coins : List String)
  | user
  | userFills (user : String)
  | candle (s : String) (i : String)
  | orderUpdates
  | userFundings (user : String)
  | userNonFundingLedgerUpdates (user : String)
  | webData2 (user : String)
  | unknown (channel : String)
deriving DecidableEq, Repr

/-- websocket_manager.py:28-50, `ws_msg_to_identifier`.  A trades frame with
an empty data list and an unknown channel both map to no identifier.  The
`established` constructor never reaches this function in the source (it is
filtered before decoding); it is mapped to no identifier here. -/
def ws_msg_to_identifier : WsMsg → Option String
  | .established => none
  | .pong => some "pong"
  | .allMids => some "allMids"
  | .l2Book c => some ("l2Book:" ++ c.toLower)
  | .tradesMsg [] => none
  | .tradesMsg (c :: _) => some ("trades:" ++ c.toLower)
  | .user => some "userEvents"
  | .userFills u => some ("userFills:" ++ u.toLower)
  | .candle s i => some ("candle:" ++ s.toLower ++ "," ++ i)
  | .orderUpdates => some "orderUpdates"
  | .userFundings u => some ("userFundings:" ++ u.toLower)
  | .userNonFundingLedgerUpdates u => some ("userNonFundingLedgerUpdates:" ++ u.toLower)
  | .webData2 u => some ("webData2:" ++ u.toLower)
  | .unknown _ => none

/-- Observable events of one connection cycle: outbound wire frames and
callback invocations (identifier, callback handle). -/
inductive Event where
  | send (m : WireMsg)
  | dispatch (ident : String) (callback : Nat)
deriving DecidableEq, Repr

/-- websocket_manager.py:128-151, `WebsocketManager.on_message`.  The connect
acknowledgement, pong responses and frames without an identifier are
discarded; otherwise every callback registered for the identifier is
invoked (an identifier with no registrations is only logged). -/
def on_message (st : WSState) (m : WsMsg) : List Event :=
  if m = WsMsg.established then []
  else
    match ws_msg_to_identifier m with
    | none => []
    | some ident =>
      if ident == "pong" then []
      else (getActive st ident).map (fun a => Event.dispatch ident a.callback)

/-- websocket_manager.py:78-85, the queued-subscription replay loop of
`run_forever`: each queued pair is re-submitted through `subscribe` with its
original id; a raise aborts the loop (the surrounding `except` catches it),
leaving earlier registrations and sends in place.  Returns the state, the
events produced, and whether the whole queue replayed without a raise. -/
def replay : WSState → List (Subscription × ActiveSubscription) →
    WSState × List Event × Bool
  | st, [] => (st, [], true)
  | st, (sub, a) :: rest =>
    let o := subscribe st sub a.callback (some a.subscription_id)
    match o.result with
    | .error _ => (o.state, o.sent.map Event.send, false)
    | .ok _ =>
      let r := replay o.state rest
      (r.1, o.sent.map Event.send ++ r.2.1, r.2.2)

/-- websocket_manager.py:70-101, one successful connection establishment in
`run_forever`: mark ready, replay the queued subscriptions, then (only if
the replay completed) clear the queue and route each inbound frame through
`on_message` until the connection drops.  On a raise during replay the
`except` clause marks the transport not ready and the queue is left as it
was. -/
def runConnection (st : WSState) (frames : List WsMsg) : WSState × List Event :=
  let st1 : WSState := { st with ws_ready := true }
  let r := replay st1 st1.queued_subscriptions
  let st2 := r.1
  let sends := r.2.1
  if r.2.2 then
    let st3 : WSState := { st2 with queued_subscriptions := [] }
    (st3, sends ++ frames.flatMap (fun m => on_message st3 m))
  else
    ({ st2 with ws_ready := false }, sends)

/-- Disconnected manager with one active `userEvents` registration (left
over from before the connection dropped). -/
def stC4c : WSState := ⟨1, false, [], [("userEvents", [⟨1, 1⟩])]⟩

/-- Connected manager with one active `userEvents` registration. -/
def stC4w : WSState := ⟨5, true, [], [("userEvents", [⟨1, 1⟩])]⟩

/-- Disconnected manager with one active trades registration. -/
def stC8c : WSState := ⟨3, false, [], [("trades:eth", [⟨1, 1⟩])]⟩

/-- Connected manager with two registrations under `trades:eth`. -/
def stC10w : WSState := ⟨5, true, [], [("trades:eth", [⟨1, 1⟩, ⟨2, 2⟩])]⟩

/-- Disconnected manager with a trades and a book subscription queued. -/
def stC3w : WSState :=
  ⟨2, false, [(Subscription.trades "ETH", ⟨1, 1⟩), (Subscription.l2Book "ETH", ⟨2, 2⟩)], []⟩

/-- Disconnected manager with two `userEvents` subscriptions queued (both
were accepted, since the exclusivity check does not run while
disconnected). -/
def stC3c : WSState :=
  ⟨2, false, [(Subscription.userEvents, ⟨1, 1⟩), (Subscription.userEvents, ⟨2, 2⟩)], []⟩

end WS

namespace Api

/-- Values of the JSON subset exchanged with the venue, as decoded by
`orjson.loads`. -/
inductive PyVal where
  | null
  | boolean (b : Bool)
  | int (n : Int)
  | str (s : String)
  | arr (xs : List PyVal)
  | obj (kvs : List (String × PyVal))

/-- Python `dict.get`: the value bound to the first occurrence of the key,
if any. -/
def lookupKey (kvs : List (String × PyVal)) (k : String) : Option PyVal :=
  match kvs.find? (fun e => e.1 == k) with
  | some e => some e.2
  | none => none

def skipWs : List Char → List Char
  | c :: rest =>
    if c = ' ' ∨ c = '\n' ∨ c = '\t' ∨ c = '\r' then skipWs rest else c :: rest
  | [] => []

/-- JSON string body after the opening quote; common escapes are decoded,
any other escaped character stands for itself. -/
def parseStr : List Char → Option (String × List Char)
  | [] => none
  | '"' :: rest => some ("", rest)
  | '\\' :: c :: rest =>
    match parseStr rest with
    | some (s, r) =>
      let ch := if c = 'n' then '\n' else if c = 't' then '\t'
        else if c = 'r' then '\r' else c
      some (String.mk (ch :: s.data), r)
    | none => none
  | c :: rest =>
    match parseStr rest with
    | some (s, r) => some (String.mk (c :: s.data), r)
    | none => none

def parseDigits : List Char → List Char × List Char
  | c :: rest =>
    if c.isDigit then
      let p := parseDigits rest
      (c :: p.1, p.2)
    else ([], c :: rest)
  | [] => ([], [])

def digitsToNat (ds : List Char) : Nat :=
  ds.foldl (fun acc c => acc * 10 + (c.toNat - 48)) 0

/-- Integer literal (no fraction or exponent: a malformed or floating-point
number makes the whole decode fail, which only narrows which concrete
bodies the witnesses may use). -/
def parseIntLit (cs : List Char) : Option (Int × List Char) :=
  let sgn : Option (Bool × List Char) :=
    match cs with
    | '-' :: rest => some (true, rest)
    | rest => some (false, rest)
  match sgn with
  | some (neg, rest) =>
    match parseDigits rest with
    | ([], _) => none
    | (ds, r) =>
      match r with
      | '.' :: _ => none
      | 'e' :: _ => none
      | 'E' :: _ => none
      | _ => some (if neg then -(digitsToNat ds : Int) else (digitsToNat ds : Int), r)
  | none => none

mutual

def parseVal : Nat → List Char → Option (PyVal × List Char)
  | 0, _ => none
  | fuel + 1, cs =>
    match skipWs cs with
    | 'n' :: 'u' :: 'l' :: 'l' :: rest => some (.null, rest)
    | 't' :: 'r' :: 'u' :: 'e' :: rest => some (.boolean true, rest)
    | 'f' :: 'a' :: 'l' :: 's' :: 'e' :: rest => some (.boolean false, rest)
    | '"' :: rest =>
      match parseStr rest with
      | some (s, r) => some (.str s, r)
      | none => none
    | '[' :: rest =>
      (match skipWs rest with
       | ']' :: r => some (.arr [], r)
       | r =>
         match parseElems fuel r with
         | some (xs, r2) => some (.arr xs, r2)
         | none => none)
    | '\x7b' :: rest =>
      (match skipWs rest with
       | '\x7d' :: r => some (.obj [], r)
       | r =>
         match parseMembers fuel r with
         | some (kvs, r2) => some (.obj kvs, r2)
         | none => none)
    | rest =>
      match parseIntLit rest with
      | some (n, r) => some (.int n, r)
      | none => none

def parseElems : Nat → List Char → Option (List PyVal × List Char)
  | 0, _ => none
  | fuel + 1, cs =>
    match parseVal fuel cs with
    | none => none
    | some (v, r) =>
      match skipWs r with
      | ',' :: r2 =>
        match parseElems fuel r2 with
        | some (vs, r3) => some (v :: vs, r3)
        | none => none
      | ']' :: r2 => some ([v], r2)
      | _ => none

def parseMembers : Nat → List Char → Option (List (String × PyVal) × List Char)
  | 0, _ => none
  | fuel + 1, cs =>
    match skipWs cs with
    | '"' :: rest =>
      (match parseStr rest with
       | none => none
       | some (k, r) =>
         match skipWs r with
         | ':' :: r2 =>
           (match parseVal fuel r2 with
            | none => none
            | some (v, r3) =>
              match skipWs r3 with
              | ',' :: r4 =>
                (match parseMembers fuel r4 with
                 | some (kvs, r5) => some ((k, v) :: kvs, r5)
                 | none => none)
              | '\x7d' :: r4 => some ([(k, v)], r4)
              | _ => none)
         | _ => none)
    | _ => none

end

/-- Model of `orjson.loads` on the JSON subset above: a decode succeeds
exactly when the whole body is consumed. -/
def loads (s : String) : Option PyVal :=
  match parseVal (s.length + 1) s.data with
  | some (v, r) => if (skipWs r).isEmpty then some v else none
  | none => none

/-- HTTP response as seen by `API.post`: status code and raw body text.
Headers are opaque connection metadata and are not modelled (in the source
they are attached to the raised errors unchanged; the unparseable-4xx
branch in fact passes them in the data slot). -/
structure HttpResponse where
  status : Nat
  body : String
deriving DecidableEq, Repr

/-- Everything `API.post` can produce: the decoded JSON (which for a
success status with a malformed body is the structured unparseable-error
dict the source builds), a raised `ClientError` or `ServerError`, or an
uncaught Python exception escaping `_handle_exception`. -/
inductive PostResult where
  | ok (v : PyVal)
  | clientError (status : Nat) (code : Option PyVal) (msg : PyVal) (data : Option PyVal)
  | serverError (status : Nat) (body : String)
  | keyError (key : String)
  | attrError

/-- api.py:29-61, `API.post` composed with `API._handle_exception`.
Status below 400: decode the body, a decode failure returning the
unparseable-error dict.  400-499: a body that fails to decode or decodes
to JSON null raises `ClientError` with the raw text as the message and no
code; a decoded object raises `ClientError` with `err.get("data")`,
`err["code"]` and `err["msg"]` (a missing key is an uncaught KeyError);
any other decoded value raises AttributeError at `err.get`.  500 and
above: `ServerError` with the status and raw body. -/
def post (resp : HttpResponse) : PostResult :=
  if resp.status < 400 then
    match loads resp.body with
    | some v => .ok v
    | none => .ok (.obj [("error", .str ("Could not parse JSON: " ++ resp.body))])
  else if resp.status < 500 then
    match loads resp.body with
    | none => .clientError resp.status none (.str resp.body) none
    | some .null => .clientError resp.status none (.str resp.body) none
    | some (.obj kvs) =>
      let data := lookupKey kvs "data"
      (match lookupKey kvs "code" with
       | none => .keyError "code"
       | some code =>
         match lookupKey kvs "msg" with
         | none => .keyError "msg"
         | some msg => .clientError resp.status (some code) msg data)
    | some _ => .attrError
  else .serverError resp.status resp.body

end Api

namespace HL

/-- Decimal literal as accepted by Python `float` on the venue's price and
size strings: optional sign, digits, optional fractional digits.  The
value is modelled exactly. -/
def parseDecimal (s : String) : Option PyFloat :=
  let core : List Char → Option PyFloat := fun cs =>
    match Api.parseDigits cs with
    | ([], _) => none
    | (ds, rest) =>
      match rest with
      | [] => some ⟨(Api.digitsToNat ds : Int), 1⟩
      | '.' :: fs =>
        (match Api.parseDigits fs with
         | ([], _) => none
         | (fds, []) =>
           some ⟨(Api.digitsToNat ds * 10 ^ fds.length + Api.digitsToNat fds : Int),
             10 ^ fds.length⟩
         | (_, _ :: _) => none)
      | _ => none
  match s.data with
  | '-' :: cs => (core cs).map (fun q => ⟨-q.num, q.den⟩)
  | cs => core cs

/-- Contract description attached to every normalized record
(hl.py:160-166): constant venue fields plus the symbol and its maximum
leverage used as the multiplier. -/
structure ContractInfo where
  symbol : String
  secType : String
  exchange : String
  multiplier : Int
  currency : String
deriving DecidableEq, Repr

/-- One wire order-book level `\x7bpx, sz, n\x7d`. -/
structure WireLevel where
  px : String
  sz : String
  n : Int
deriving DecidableEq, Repr

/-- Payload of an `l2Book` frame: `coin` and `time` are always present on
the wire; `levels` is optional and of arbitrary shape. -/
structure L2Data where
  coin : String
  time : Int
  levels : Option (List (List WireLevel))
deriving DecidableEq, Repr

/-- One normalized book level `\x7bprice, qty, orders\x7d`. -/
structure BookLevel where
  price : PyFloat
  qty : PyFloat
  orders : Int
deriving DecidableEq, Repr

/-- Normalized order-book snapshot. -/
structure BookSnapshot where
  contract : ContractInfo
  timestamp : Int
  bids : List BookLevel
  asks : List BookLevel
deriving DecidableEq, Repr

def parseLevel (l : WireLevel) : Option BookLevel :=
  match parseDecimal l.px, parseDecimal l.sz with
  | some p, some q => some ⟨p, q, l.n⟩
  | _, _ => none

def parseLevels (ls : List WireLevel) : Option (List BookLevel) :=
  ls.mapM parseLevel

/-- hl.py:157-198, `HL._format_orderbook_data`.  `leverage` stands for
`self.info.get_max_leverage`.  Index 0 of the two-element levels array
becomes the bids, index 1 the asks; a missing levels key or a levels array
that is not exactly two elements leaves both sides empty.  `none` models
the ValueError Python `float` raises on an unparseable price or size
string. -/
def format_orderbook_data (leverage : String → Int) (d : L2Data) : Option BookSnapshot :=
  let contract : ContractInfo := ⟨d.coin, "PERP", "HYPERLIQUID", leverage d.coin, "USD"⟩
  match d.levels with
  | some [bids, asks] =>
    (match parseLevels bids, parseLevels asks with
     | some bl, some al => some ⟨contract, d.time, bl, al⟩
     | _, _ => none)
  | _ => some ⟨contract, d.time, [], []⟩

/-- One candle bar as normalized in `_format_candle_data`
(hl.py:280-288). -/
structure Bar where
  time : Int
  opn : PyFloat
  high : PyFloat
  low : PyFloat
  close : PyFloat
  volume : PyFloat
deriving DecidableEq, Repr

/-- Leverage map of a venue listing ETH with maximum leverage 50. -/
def levETH : String → Int := fun c => if c = "ETH" then 50 else 0

/-- The raw l2Book frame of the spec's scenario 6: coin ETH, one bid level
px 3000 sz 1.5 n 2, one ask level px 3001 sz 0.8 n 1. -/
def ethFrame : L2Data := ⟨"ETH", 1700, some [[⟨"3000", "1.5", 2⟩], [⟨"3001", "0.8", 1⟩]]⟩

/-- A malformed frame whose levels array has three elements. -/
def badFrame : L2Data := ⟨"ETH", 1700, some [[], [], []]⟩

/-- hl.py:294-305, the candle merge cache update of `_format_candle_data`
for one `(symbol, interval)` key: an update with the cached head's
timestamp replaces the head in place, a new timestamp appends and evicts
the oldest beyond two entries.  The returned list is the window the
callback passes downstream. -/
def mergeCandle (candles : List Bar) (cur : Bar) : List Bar :=
  if candles.getLast?.map (fun b => b.time) == some cur.time then
    candles.dropLast ++ [cur]
  else
    let appended := candles ++ [cur]
    if appended.length > 2 then appended.drop 1 else appended

end HL

namespace DB

/-- Row of the `trades` hypertable.  The time column is the Python
`datetime` from `fromtimestamp(ms / 1000.0)`, modelled as rational
seconds. -/
structure TradeRow where
  time : PyFloat
  contract_id : Nat
  price : PyFloat
  quantity : PyFloat
  side : Option String
  ttype : Option String
  trade_id : Option Int
deriving DecidableEq, Repr

/-- Conflict target of the trades INSERT: `(time, contract_id)`
(db.py:177). -/
def tradeKeyEq (a b : TradeRow) : Bool :=
  PyFloat.valEq a.time b.time && a.contract_id == b.contract_id

/-- One `INSERT ... ON CONFLICT (time, contract_id) DO NOTHING` into the
trades table (db.py:173-180): a row whose key is already present is
dropped silently, anything else is appended. -/
def insertTradeRow (tbl : List TradeRow) (r : TradeRow) : List TradeRow :=
  if tbl.any (fun q => tradeKeyEq q r) then tbl else tbl ++ [r]

/-- The `executemany` over the value rows of one contract group
(db.py:159-180): rows are inserted in order, each under the conflict
rule. -/
def insertTradeRows (tbl : List TradeRow) (rs : List TradeRow) : List TradeRow :=
  rs.foldl insertTradeRow tbl

/-- A normalized trade record as produced by the adapters, restricted to
the fields `insert_trades` reads (db.py:161-171). -/
structure TradeRec where
  timestamp : Int
  price : PyFloat
  qty : PyFloat
  side : Option String
  ttype : Option String
  tid : Option Int
deriving DecidableEq, Repr

/-- db.py:161-171: the value tuple built for one trade, given the resolved
contract id. -/
def tradeRowOfRec (contract_id : Nat) (t : TradeRec) : TradeRow :=
  ⟨⟨t.timestamp, 1000⟩, contract_id, t.price, t.qty, t.side, t.ttype, t.tid⟩

/-- Row of the `historical_data` candle table (db.py:314-323). -/
structure CandleRow where
  time : PyFloat
  contract_id : Nat
  opn : PyFloat
  high : PyFloat
  low : PyFloat
  close : PyFloat
  volume : PyFloat
deriving DecidableEq, Repr

def candleKeyEq (a b : CandleRow) : Bool :=
  PyFloat.valEq a.time b.time && a.contract_id == b.contract_id

/-- db.py:311-323: the value tuple for one bar; a negative volume is
clamped to zero and the spread column (always NULL) is omitted. -/
def candleRowOfBar (contract_id : Nat) (b : HL.Bar) : CandleRow :=
  ⟨⟨b.time, 1000⟩, contract_id, b.opn, b.high, b.low, b.close,
    if PyFloat.nonneg b.volume then b.volume else ⟨0, 1⟩⟩

def insertCandleRow (tbl : List CandleRow) (r : CandleRow) : List CandleRow :=
  if tbl.any (fun q => candleKeyEq q r) then tbl else tbl ++ [r]

/-- db.py:306-308: all bars of the window except the most recent are
treated as completed; a single-bar window is written whole. -/
def completedBars (bars : List HL.Bar) : List HL.Bar :=
  if bars.length > 1 then bars.dropLast else bars

/-- db.py:291-334, `Database.insert_candles` for one already-resolved
contract: nothing happens on an empty window, otherwise the completed bars
are inserted in order under `ON CONFLICT (time, contract_id) DO
NOTHING`. -/
def insert_candles (tbl : List CandleRow) (contract_id : Nat) (bars : List HL.Bar) :
    List CandleRow :=
  if bars.isEmpty then tbl
  else (completedBars bars).foldl (fun t b => insertCandleRow t (candleRowOfBar contract_id b)) tbl

/-- One candle update of the live pipeline: `HL._format_candle_data`
merges the bar into the cached window (hl.py:294-305), and the full window
is handed to `Database.insert_candles` through the stream callback
(stream.py:116-118). -/
def candleStep (contract_id : Nat) (s : List HL.Bar × List CandleRow) (cur : HL.Bar) :
    List HL.Bar × List CandleRow :=
  let cache := HL.mergeCandle s.1 cur
  (cache, insert_candles s.2 contract_id cache)

/-- Claim C2 scenario: the t=100 bar as first received. -/
def c2b1 : HL.Bar := ⟨100, ⟨1, 1⟩, ⟨2, 1⟩, ⟨5, 10⟩, ⟨15, 10⟩, ⟨10, 1⟩⟩

/-- Claim C2 scenario: the same t=100 bar revised. -/
def c2b2 : HL.Bar := ⟨100, ⟨1, 1⟩, ⟨3, 1⟩, ⟨5, 10⟩, ⟨2, 1⟩, ⟨12, 1⟩⟩

/-- Claim C2 scenario: the new t=200 bar. -/
def c2b3 : HL.Bar := ⟨200, ⟨2, 1⟩, ⟨2, 1⟩, ⟨2, 1⟩, ⟨2, 1⟩, ⟨5, 1⟩⟩

/-- A concrete normalized trade record. -/
def c7rec : TradeRec := ⟨1700000000000, ⟨3000, 1⟩, ⟨15, 10⟩, some "B", none, some 123⟩

/-- Python values appearing in a field of a contract dict. -/
inductive CVal where
  | vNone
  | vStr (s : String)
  | vInt (n : Int)
deriving DecidableEq, Repr

/-- Python truthiness of a contract field value. -/
def falsy : CVal → Bool
  | .vNone => true
  | .vStr s => s == ""
  | .vInt n => n == 0

/-- The contract dict passed to `get_or_create_contract`; `none` models an
absent key, `some .vNone` a key bound to Python None. -/
structure ContractData where
  symbol : Option CVal
  secType : Option CVal
  exchange : Option CVal
  currency : Option CVal
  multiplier : Option CVal
  expiration : Option CVal
  right : Option CVal
  strike : Option CVal
deriving DecidableEq, Repr

/-- db.py:50-54: an empty-string multiplier becomes 1, otherwise any falsy
multiplier becomes 1. -/
def normMultiplier (m : CVal) : CVal :=
  if m = .vStr "" then .vInt 1 else if falsy m then .vInt 1 else m

/-- db.py:56-60: empty-string expiration and right become None. -/
def normBlank (e : CVal) : CVal := if e = .vStr "" then .vNone else e

/-- db.py:62-64: empty-string, zero and None strike become None. -/
def normStrike (s : CVal) : CVal :=
  if s = .vStr "" ∨ s = .vInt 0 ∨ s = .vNone then .vNone else s

/-- Key of the in-process contract cache (db.py:66-75): the first four
fields default to the empty string when absent, the others to None before
normalization. -/
structure CKey where
  symbol : CVal
  secType : CVal
  exchange : CVal
  currency : CVal
  multiplier : CVal
  expiration : CVal
  option_right : CVal
  strike : CVal
deriving DecidableEq, Repr

def cacheKey (d : ContractData) : CKey :=
  ⟨d.symbol.getD (.vStr ""), d.secType.getD (.vStr ""), d.exchange.getD (.vStr ""),
   d.currency.getD (.vStr ""), normMultiplier (d.multiplier.getD .vNone),
   normBlank (d.expiration.getD .vNone), normBlank (d.right.getD .vNone),
   normStrike (d.strike.getD .vNone)⟩

/-- The parameter tuple bound into the SELECT and INSERT statements
(db.py:100-107, 123-130): plain `dict.get`, so an absent key is SQL
NULL. -/
structure QKey where
  symbol : CVal
  secType : CVal
  exchange : CVal
  currency : CVal
  multiplier : CVal
  expiration : CVal
  option_right : CVal
  strike : CVal
deriving DecidableEq, Repr

def queryKey (d : ContractData) : QKey :=
  ⟨d.symbol.getD .vNone, d.secType.getD .vNone, d.exchange.getD .vNone,
   d.currency.getD .vNone, normMultiplier (d.multiplier.getD .vNone),
   normBlank (d.expiration.getD .vNone), normBlank (d.right.getD .vNone),
   normStrike (d.strike.getD .vNone)⟩

/-- SQL `=`: never true when either side is NULL. -/
def sqlEq (a b : CVal) : Bool :=
  match a, b with
  | .vNone, _ => false
  | _, .vNone => false
  | a, b => a == b

/-- SQL `IS NOT DISTINCT FROM`: NULL compares equal to NULL. -/
def notDistinct (a b : CVal) : Bool := a == b

/-- The WHERE clause of the contract lookup (db.py:91-99): plain equality
on symbol, sec_type, exchange, currency and multiplier, NULL-safe equality
on expiration, option_right and strike. -/
def rowMatch (row q : QKey) : Bool :=
  sqlEq row.symbol q.symbol && sqlEq row.secType q.secType &&
  sqlEq row.exchange q.exchange && sqlEq row.currency q.currency &&
  sqlEq row.multiplier q.multiplier && notDistinct row.expiration q.expiration &&
  notDistinct row.option_right q.option_right && notDistinct row.strike q.strike

/-- Program points of one `get_or_create_contract` call, one per suspension
point of the coroutine (db.py:39-133): the synchronous cache test (77-78),
blocking on `pg_advisory_xact_lock` (88), the SELECT (91-108), the INSERT
(115-130), the transaction commit which also releases the advisory lock
(86), and the cache write performed after the commit, before returning
(132). -/
inductive Pc where
  | checkCache
  | acquireLock
  | selectRow
  | insertRow
  | commitRelease
  | writeCache
  | done
deriving DecidableEq, Repr

/-- One in-flight call: its program point and, once determined, the id it
will return. -/
structure Task where
  pc : Pc
  res : Option Nat
deriving DecidableEq, Repr

/-- Shared state of N interleaved `get_or_create_contract` calls for one
identity tuple in one process: the committed `contracts` rows, the id
sequence, the holder of the advisory lock for the `(symbol, secType,
exchange)` lock key (the same key string, hence the same in-process lock
number, for every call), the in-process `_contract_cache`, and the
tasks.  A row is entered into `db` at the INSERT step although it commits
only at `commitRelease`; this is observationally equivalent because every
SELECT is mutually excluded by the advisory lock until the commit releases
it. -/
structure MState where
  db : List (Nat × QKey)
  nextId : Nat
  lockHeld : Option Nat
  cache : List (CKey × Nat)
  tasks : List Task
deriving DecidableEq, Repr

/-- The SELECT of db.py:91-108 over the committed rows. -/
def findRow (db : List (Nat × QKey)) (q : QKey) : Option Nat :=
  (db.find? (fun r => rowMatch r.2 q)).map (fun r => r.1)

/-- The `cache_key in self._contract_cache` test (db.py:77). -/
def cacheLookup (cache : List (CKey × Nat)) (k : CKey) : Option Nat :=
  (cache.find? (fun e => e.1 == k)).map (fun e => e.2)

/-- One scheduler step of task `i`.  `none` means the step is not enabled:
the task does not exist, is finished, would block on the advisory lock, or
(unreachably) reaches the cache write with no result. -/
def step (ck : CKey) (qk : QKey) (st : MState) (i : Nat) : Option MState :=
  match st.tasks[i]? with
  | none => none
  | some t =>
    match t.pc with
    | .checkCache =>
      (match cacheLookup st.cache ck with
       | some v => some { st with tasks := st.tasks.set i ⟨.done, some v⟩ }
       | none => some { st with tasks := st.tasks.set i ⟨.acquireLock, none⟩ })
    | .acquireLock =>
      (match st.lockHeld with
       | some _ => none
       | none => some { st with lockHeld := some i, tasks := st.tasks.set i ⟨.selectRow, none⟩ })
    | .selectRow =>
      (match findRow st.db qk with
       | some v => some { st with tasks := st.tasks.set i ⟨.commitRelease, some v⟩ }
       | none => some { st with tasks := st.tasks.set i ⟨.insertRow, none⟩ })
    | .insertRow =>
      some { st with db := st.db ++ [(st.nextId, qk)], nextId := st.nextId + 1,
                     tasks := st.tasks.set i ⟨.commitRelease, some st.nextId⟩ }
    | .commitRelease =>
      some { st with lockHeld := none, tasks := st.tasks.set i ⟨.writeCache, t.res⟩ }
    | .writeCache =>
      (match t.res with
       | some v => some { st with cache := (ck, v) :: st.cache,
                                  tasks := st.tasks.set i ⟨.done, some v⟩ }
       | none => none)
    | .done => none

/-- Run a schedule: the sequence of task indices chosen by the scheduler.
`none` when some chosen step is not enabled, so a `some` result ranges
exactly over the valid interleavings. -/
def exec (ck : CKey) (qk : QKey) : MState → List Nat → Option MState
  | st, [] => some st
  | st, i :: rest =>
    match step ck qk st i with
    | none => none
    | some st2 => exec ck qk st2 rest

/-- N fresh concurrent calls against an empty cache and a database holding
no row for the tuple. -/
def initState (n : Nat) : MState :=
  ⟨[], 0, none, [], List.replicate n ⟨.checkCache, none⟩⟩

/-- Program points that hold the advisory lock: from acquiring it to the
commit that releases it. -/
def InCrit (p : Pc) : Prop := p = Pc.selectRow ∨ p = Pc.insertRow ∨ p = Pc.commitRelease

/-- Program points at which a call has already determined the id it will
return. -/
def PostSel (p : Pc) : Prop := p = Pc.commitRelease ∨ p = Pc.writeCache ∨ p = Pc.done

/-- Inductive invariant of the interleaved resolution machine: every row
carries the tuple and an id below the sequence counter; at most one row
exists; a task inside the critical section is the lock holder; a task at
the INSERT has observed an empty table; a task past its SELECT (or
finished) carries the id of a durable row; the cache only points to a
durable row. -/
def Inv (ck : CKey) (qk : QKey) (st : MState) : Prop :=
  (∀ r ∈ st.db, r.2 = qk ∧ r.1 < st.nextId) ∧
  st.db.length ≤ 1 ∧
  (∀ (i : Nat) (t : Task), st.tasks[i]? = some t → InCrit t.pc → st.lockHeld = some i) ∧
  (∀ (i : Nat) (t : Task), st.tasks[i]? = some t → t.pc = Pc.insertRow → st.db = []) ∧
  (∀ (i : Nat) (t : Task), st.tasks[i]? = some t → PostSel t.pc →
    ∃ v, t.res = some v ∧ (v, qk) ∈ st.db) ∧
  (∀ v, cacheLookup st.cache ck = some v → (v, qk) ∈ st.db)

/-- A fully-populated identity tuple (the normal case). -/
def c1full : ContractData :=
  ⟨some (.vStr "ETH"), some (.vStr "PERP"), some (.vStr "HYPERLIQUID"),
   some (.vStr "USD"), some (.vInt 50), none, none, none⟩

/-- The same tuple with the currency key absent (bound as SQL NULL). -/
def c1null : ContractData :=
  ⟨some (.vStr "ETH"), some (.vStr "PERP"), some (.vStr "HYPERLIQUID"),
   none, some (.vInt 50), none, none, none⟩

/-- Schedule in which both calls pass their cache check before either
commits. -/
def c1sNull : List Nat := [0, 1, 0, 0, 0, 0, 1, 1, 1, 1, 0, 1]

/-- Schedule in which call 0 runs up to and including its commit, then
call 1 checks the cache and acquires the advisory lock. -/
def c1sLock : List Nat := [0, 0, 0, 0, 0, 1, 1]

/-- Sequential schedule: call 0 start to finish, then call 1. -/
def c1sSeq : List Nat := [0, 0, 0, 0, 0, 0, 1]

/-- Terminal state of `c1sSeq` from two fresh calls on `c1full`. -/
def c1final : MState :=
  ⟨[(0, queryKey c1full)], 1, none, [(cacheKey c1full, 0)],
   [⟨Pc.done, some 0⟩, ⟨Pc.done, some 0⟩]⟩

/-- State after call 0 finished completely while call 1 has not yet run. -/
def c1mid : MState :=
  ⟨[(0, queryKey c1full)], 1, none, [(cacheKey c1full, 0)],
   [⟨Pc.done, some 0⟩, ⟨Pc.checkCache, none⟩]⟩

/-- Width of the 64-bit words siphash works on. -/
def w64 (n : Nat) : Nat := n % 18446744073709551616

def add64 (a b : Nat) : Nat := w64 (a + b)

def rotl64 (x r : Nat) : Nat := w64 ((x <<< r) ||| (x >>> (64 - r)))

/-- The HALF_ROUND macro of CPython pyhash.c. -/
def halfRound (a b c d s t : Nat) : Nat × Nat × Nat × Nat :=
  let a := add64 a b
  let c := add64 c d
  let b := (rotl64 b s) ^^^ a
  let d := (rotl64 d t) ^^^ c
  let a := rotl64 a 32
  (a, b, c, d)

/-- The SINGLE_ROUND macro of CPython pyhash.c. -/
def sipRound (v : Nat × Nat × Nat × Nat) : Nat × Nat × Nat × Nat :=
  match halfRound v.1 v.2.1 v.2.2.1 v.2.2.2 13 16 with
  | (v0, v1, v2, v3) =>
    match halfRound v2 v1 v0 v3 17 21 with
    | (v2a, v1a, v0a, v3a) => (v0a, v1a, v2a, v3a)

/-- UTF-8 encoding of one character. -/
def utf8Bytes (c : Char) : List Nat :=
  let n := c.toNat
  if n < 128 then [n]
  else if n < 2048 then [192 ||| (n >>> 6), 128 ||| (n &&& 63)]
  else if n < 65536 then
    [224 ||| (n >>> 12), 128 ||| ((n >>> 6) &&& 63), 128 ||| (n &&& 63)]
  else
    [240 ||| (n >>> 18), 128 ||| ((n >>> 12) &&& 63), 128 ||| ((n >>> 6) &&& 63),
     128 ||| (n &&& 63)]

def strBytes (s : String) : List Nat := (s.data.map utf8Bytes).flatten

/-- Little-endian value of a byte list. -/
def le64 (bs : List Nat) : Nat := bs.foldr (fun b acc => b + 256 * acc) 0

/-- Split a byte list into full 8-byte words and the remainder. -/
def chunks8 : List Nat → List (List Nat) × List Nat
  | b0 :: b1 :: b2 :: b3 :: b4 :: b5 :: b6 :: b7 :: rest =>
    let p := chunks8 rest
    ([b0, b1, b2, b3, b4, b5, b6, b7] :: p.1, p.2)
  | t => ([], t)

/-- Body step of siphash13: xor the word into v3, one round, xor into
v0. -/
def sipBody (v : Nat × Nat × Nat × Nat) (mi : Nat) : Nat × Nat × Nat × Nat :=
  let v := sipRound (v.1, v.2.1, v.2.2.1, v.2.2.2 ^^^ mi)
  (v.1 ^^^ mi, v.2.1, v.2.2.1, v.2.2.2)

/-- CPython pyhash.c `pysiphash13`, the default string hash function of
CPython 3.11 and later, keyed by the 128-bit per-process hash secret. -/
def siphash13 (k0 k1 : Nat) (bs : List Nat) : Nat :=
  let b0 := w64 (bs.length <<< 56)
  let v0 := (w64 k0) ^^^ 8317987319222330741
  let v1 := (w64 k1) ^^^ 7237128888997146477
  let v2 := (w64 k0) ^^^ 7816392313619706465
  let v3 := (w64 k1) ^^^ 8387220255154660723
  let cw := chunks8 bs
  let v := cw.1.foldl (fun v w => sipBody v (le64 w)) (v0, v1, v2, v3)
  let b := b0 ||| le64 cw.2
  let v := sipRound (v.1, v.2.1, v.2.2.1, v.2.2.2 ^^^ b)
  let v := (v.1 ^^^ b, v.2.1, v.2.2.1 ^^^ 255, v.2.2.2)
  let v := sipRound (sipRound (sipRound v))
  (v.1 ^^^ v.2.1) ^^^ (v.2.2.1 ^^^ v.2.2.2)

/-- CPython `hash` of a str: 0 for the empty string, otherwise siphash13
of the UTF-8 bytes under the process hash key, reinterpreted as a signed
64-bit value, with -1 mapped to -2.  The key pair (k0, k1) is drawn at
random at interpreter startup unless PYTHONHASHSEED pins it, so its value
differs between program runs. -/
def pyHashStr (k0 k1 : Nat) (s : String) : Int :=
  if s.data.isEmpty then 0
  else
    let x := siphash13 (w64 k0) (w64 k1) (strBytes s)
    let xi : Int := if x < 9223372036854775808 then (x : Int)
      else (x : Int) - 18446744073709551616
    if xi = -1 then -2 else xi

/-- db.py:272: the news id inserted by `insert_news_item`,
`hash(f"\x7bsource\x7d:\x7bcategory\x7d:\x7bitem\x7d:\x7btimestamp\x7d")`
— CPython's salted string hash of the joined fields, where `tsRepr` is the
str() rendering of the timestamp. -/
def news_id (k0 k1 : Nat) (source category item tsRepr : String) : Int :=
  pyHashStr k0 k1 (source ++ ":" ++ category ++ ":" ++ item ++ ":" ++ tsRepr)

end DB

namespace WS

lemma setPairs_find_self (m : List (String × List ActiveSubscription)) (i : String)
    (l : List ActiveSubscription) :
    (setPairs m i l).find? (fun e => e.1 == i) = some (i, l) := by
  induction m with
  | nil => simp [setPairs]
  | cons e rest ih =>
    by_cases h : e.1 = i
    · simp [setPairs, h]
    · have hb : (e.1 == i) = false := by simpa using h
      simp [setPairs, hb, ih]

lemma setPairs_find_ne (m : List (String × List ActiveSubscription)) (i j : String)
    (l : List ActiveSubscription) (h : j ≠ i) :
    (setPairs m i l).find? (fun e => e.1 == j) = m.find? (fun e => e.1 == j) := by
  have hij : (i == j) = false := by simpa using (Ne.symm h)
  induction m with
  | nil => simp [setPairs, hij]
  | cons e rest ih =>
    by_cases he : e.1 = i
    · have heb : (e.1 == i) = true := by simpa using he
      have hej : (e.1 == j) = false := by rw [he]; simpa using (Ne.symm h)
      simp [setPairs, heb, hij, hej]
    · have heb : (e.1 == i) = false := by simpa using he
      by_cases hj : e.1 = j
      · simp [setPairs, heb, hj, h]
      · have hjb : (e.1 == j) = false := by simpa using hj
        simp [setPairs, heb, hjb, ih]

lemma getActive_setActive_self (st : WSState) (i : String) (l : List ActiveSubscription) :
    getActive (setActive st i l) i = l := by
  simp [getActive, setActive, setPairs_find_self]

lemma getActive_setActive_ne (st : WSState) (i j : String) (l : List ActiveSubscription)
    (h : j ≠ i) : getActive (setActive st i l) j = getActive st j := by
  simp [getActive, setActive, setPairs_find_ne _ _ _ _ h]

lemma subscribe_none_eq (st : WSState) (sub : Subscription) (cb : Nat) :
    subscribe st sub cb none =
      subscribe { st with subscription_id_counter := st.subscription_id_counter + 1 } sub cb
        (some (st.subscription_id_counter + 1)) := rfl

lemma subscribe_ready_exclusive (st : WSState) (sub : Subscription) (cb sid : Nat)
    (hready : st.ws_ready = true)
    (hex : subscription_to_identifier sub = "userEvents" ∨
      subscription_to_identifier sub = "orderUpdates")
    (hactive : getActive st (subscription_to_identifier sub) ≠ []) :
    subscribe st sub cb (some sid) =
      ⟨st, [], Except.error ("Cannot subscribe to " ++ subscription_to_identifier sub
        ++ " multiple times")⟩ := by
  have hempty : (getActive st (subscription_to_identifier sub)).isEmpty = false := by
    cases hga : getActive st (subscription_to_identifier sub) with
    | nil => exact absurd hga hactive
    | cons x xs => simp
  have hcond : ((subscription_to_identifier sub == "userEvents" ||
      subscription_to_identifier sub == "orderUpdates") &&
      !(getActive st (subscription_to_identifier sub)).isEmpty) = true := by
    rcases hex with h | h <;> rw [h] at hempty ⊢ <;> simp [hempty]
  simp only [subscribe, hready, hcond]
  simp

lemma length_bne_filter_iff (l : List ActiveSubscription) (sid : Nat) :
    ((l.length != (l.filter (fun a => a.subscription_id != sid)).length) = true) ↔
      ∃ a ∈ l, a.subscription_id = sid := by
  induction l with
  | nil => simp
  | cons a rest ih =>
    by_cases h : a.subscription_id = sid
    · have hb : (a.subscription_id != sid) = false := by simp [h]
      have hle := List.length_filter_le (fun x => x.subscription_id != sid) rest
      constructor
      · intro _
        exact ⟨a, List.mem_cons_self a rest, h⟩
      · intro _
        rw [List.filter_cons_of_neg (by simp [hb])]
        simp only [List.length_cons, bne_iff_ne, ne_eq]
        omega
    · have hb : (a.subscription_id != sid) = true := by simpa using h
      rw [List.filter_cons_of_pos (by simp [hb])]
      simp only [List.length_cons, bne_iff_ne, ne_eq] at ih ⊢
      constructor
      · intro hne
        rcases ih.mp (by omega) with ⟨x, hx, hxe⟩
        exact ⟨x, List.mem_cons_of_mem a hx, hxe⟩
      · rintro ⟨x, hx, hxe⟩
        rcases List.mem_cons.mp hx with rfl | hx2
        · exact absurd hxe h
        · have := ih.mpr ⟨x, hx2, hxe⟩
          omega

/-- Claim C4, counterexample to the claim as stated: while the transport is
not ready (as after a disconnect, which leaves active registrations in
place), a subscribe call naming the exclusive identifier `userEvents` that
already has an active subscription does not raise: it is queued and
returns a fresh id. -/
theorem subscribe_exclusive_queued_when_disconnected :
    stC4c.ws_ready = false ∧
    getActive stC4c "userEvents" = [⟨1, 1⟩] ∧
    (subscribe stC4c Subscription.userEvents 9 none).result = Except.ok 2 ∧
    (subscribe stC4c Subscription.userEvents 9 none).state.queued_subscriptions =
      [(Subscription.userEvents, ⟨9, 2⟩)] :=
  ⟨rfl, rfl, rfl, rfl⟩

/-- Claim C4 (amended): while the transport is ready, a subscribe call
naming an exclusive topic identifier (userEvents or orderUpdates) that
already has an active subscription raises the exclusivity error
synchronously, sends nothing, and leaves every registration unchanged;
while the transport is not ready the call is queued unchecked and the
conflict surfaces only at replay time. -/
theorem subscribe_exclusive_rejected (st : WSState) (sub : Subscription) (cb : Nat)
    (sid? : Option Nat) (hready : st.ws_ready = true)
    (hex : subscription_to_identifier sub = "userEvents" ∨
      subscription_to_identifier sub = "orderUpdates")
    (hactive : getActive st (subscription_to_identifier sub) ≠ []) :
    (subscribe st sub cb sid?).result =
      Except.error ("Cannot subscribe to " ++ subscription_to_identifier sub
        ++ " multiple times") ∧
    (subscribe st sub cb sid?).state.active_subscriptions = st.active_subscriptions ∧
    (subscribe st sub cb sid?).sent = [] := by
  cases sid? with
  | none =>
    rw [subscribe_none_eq]
    rw [subscribe_ready_exclusive
      { st with subscription_id_counter := st.subscription_id_counter + 1 } sub cb
      (st.subscription_id_counter + 1) hready hex hactive]
    exact ⟨rfl, rfl, rfl⟩
  | some sid =>
    rw [subscribe_ready_exclusive st sub cb sid hready hex hactive]
    exact ⟨rfl, rfl, rfl⟩

/-- Claim C4 witness: the amended theorem applied to a ready transport
with one active `userEvents` registration. -/
theorem subscribe_exclusive_rejected_witness :
    (subscribe stC4w Subscription.userEvents 9 none).result =
      Except.error ("Cannot subscribe to userEvents multiple times") ∧
    (subscribe stC4w Subscription.userEvents 9 none).state.active_subscriptions =
      stC4w.active_subscriptions ∧
    (subscribe stC4w Subscription.userEvents 9 none).sent = [] :=
  subscribe_exclusive_rejected stC4w Subscription.userEvents 9 none rfl (Or.inl rfl)
    (by decide)

/-- Claim C8, counterexample to the claim as stated: an unsubscribe issued
while the transport is not ready raises and leaves the state (in
particular the queue) untouched; it is not buffered and nothing is ever
replayed for it. -/
theorem unsubscribe_disconnected_not_buffered :
    stC8c.ws_ready = false ∧
    (unsubscribe stC8c (Subscription.trades "ETH") 1).result =
      Except.error "Cannot unsubscribe before websocket connected" ∧
    (unsubscribe stC8c (Subscription.trades "ETH") 1).state = stC8c :=
  ⟨rfl, rfl, rfl⟩

/-- Claim C8 (amended): an unsubscribe request issued while the transport
is not ready raises `NotImplementedError` immediately and has no effect;
only subscribe requests issued while disconnected are queued for replay. -/
theorem unsubscribe_disconnected_raises (st : WSState) (sub : Subscription) (sid : Nat)
    (h : st.ws_ready = false) :
    (unsubscribe st sub sid).result =
      Except.error "Cannot unsubscribe before websocket connected" ∧
    (unsubscribe st sub sid).state = st ∧
    (unsubscribe st sub sid).sent = [] := by
  simp [unsubscribe, h]

/-- Claim C8 witness: the amended theorem applied to a concrete
disconnected state. -/
theorem unsubscribe_disconnected_raises_witness :
    (unsubscribe stC8c (Subscription.trades "ETH") 1).result =
      Except.error "Cannot unsubscribe before websocket connected" ∧
    (unsubscribe stC8c (Subscription.trades "ETH") 1).state = stC8c ∧
    (unsubscribe stC8c (Subscription.trades "ETH") 1).sent = [] :=
  unsubscribe_disconnected_raises stC8c (Subscription.trades "ETH") 1 rfl

/-- Claim C10: while connected, `unsubscribe` returns True exactly when
some active subscription with the given id was registered under the
topic's identifier; afterwards that identifier's registrations are the
original list with every pair bearing the id removed; the unsubscribe
frame is sent to the venue exactly when the resulting list is empty. -/
theorem unsubscribe_connected_spec (st : WSState) (sub : Subscription) (sid : Nat)
    (h : st.ws_ready = true) :
    (∃ b, (unsubscribe st sub sid).result = Except.ok b ∧
      (b = true ↔ ∃ a ∈ getActive st (subscription_to_identifier sub),
        a.subscription_id = sid)) ∧
    getActive (unsubscribe st sub sid).state (subscription_to_identifier sub) =
      (getActive st (subscription_to_identifier sub)).filter
        (fun a => a.subscription_id != sid) ∧
    ((unsubscribe st sub sid).sent =
      if ((getActive st (subscription_to_identifier sub)).filter
          (fun a => a.subscription_id != sid)).isEmpty
      then [WireMsg.unsubscribeMsg sub] else []) := by
  refine ⟨⟨(getActive st (subscription_to_identifier sub)).length !=
      ((getActive st (subscription_to_identifier sub)).filter
        (fun a => a.subscription_id != sid)).length, ?_, ?_⟩, ?_, ?_⟩
  · simp [unsubscribe, h]
  · exact length_bne_filter_iff (getActive st (subscription_to_identifier sub)) sid
  · simp [unsubscribe, h, getActive_setActive_self]
  · simp [unsubscribe, h]

lemma subscribe_ready_some_cases (st : WSState) (sub : Subscription) (cb sid : Nat)
    (hready : st.ws_ready = true) :
    (∃ e, subscribe st sub cb (some sid) = ⟨st, [], Except.error e⟩) ∨
    subscribe st sub cb (some sid) =
      ⟨setActive st (subscription_to_identifier sub)
        (getActive st (subscription_to_identifier sub) ++ [⟨cb, sid⟩]),
       [WireMsg.subscribeMsg sub], Except.ok sid⟩ := by
  by_cases hc : ((subscription_to_identifier sub == "userEvents" ||
      subscription_to_identifier sub == "orderUpdates") &&
      !(getActive st (subscription_to_identifier sub)).isEmpty) = true
  · left
    refine ⟨"Cannot subscribe to " ++ subscription_to_identifier sub ++ " multiple times", ?_⟩
    simp only [subscribe, hready, hc]
    simp
  · right
    simp only [subscribe, hready]
    simp [hc]

lemma on_message_dispatch (st : WSState) (m : WsMsg) :
    ∀ e ∈ on_message st m, ∃ i c, e = Event.dispatch i c := by
  intro e he
  by_cases h1 : m = WsMsg.established
  · simp [on_message, h1] at he
  · rcases hid : ws_msg_to_identifier m with _ | ident
    · simp [on_message, h1, hid] at he
    · by_cases h2 : (ident == "pong") = true
      · simp [on_message, h1, hid, h2] at he
      · simp only [on_message, h1, hid, h2, if_neg, Bool.false_eq_true, if_false] at he
        rcases List.mem_map.mp (by simpa using he) with ⟨a, _, rfl⟩
        exact ⟨ident, a.callback, rfl⟩

lemma replay_ok_spec (q : List (Subscription × ActiveSubscription)) :
    ∀ st : WSState, st.ws_ready = true → (replay st q).2.2 = true →
      (replay st q).2.1 = q.map (fun p => Event.send (WireMsg.subscribeMsg p.1)) ∧
      (replay st q).1.ws_ready = true ∧
      (replay st q).1.queued_subscriptions = st.queued_subscriptions := by
  induction q with
  | nil => exact fun st h _ => ⟨rfl, h, rfl⟩
  | cons p rest ih =>
    intro st h hok
    obtain ⟨sub, a⟩ := p
    rcases subscribe_ready_some_cases st sub a.callback a.subscription_id h with ⟨e, he⟩ | he
    · exfalso
      simp [replay, he] at hok
    · have h2 : (setActive st (subscription_to_identifier sub)
          (getActive st (subscription_to_identifier sub)
            ++ [⟨a.callback, a.subscription_id⟩])).ws_ready = true := h
      simp only [replay, he] at hok ⊢
      obtain ⟨hsend, hrd, hque⟩ := ih _ h2 hok
      refine ⟨?_, hrd, hque⟩
      simp [hsend]

/-- Claim C3, counterexample to the claim as stated: from `stC3c`, whose
queue holds two `userEvents` subscriptions submitted while disconnected,
the reconnect replay sends only the first; the second hits the exclusivity
raise during replay, the connection attempt is torn down, and the
buffered subscription is never sent, so the replayed sends are not the
whole submission-ordered queue. -/
theorem queued_replay_not_all_sent :
    (runConnection stC3c []).2 = [Event.send (WireMsg.subscribeMsg Subscription.userEvents)] ∧
    stC3c.queued_subscriptions.length = 2 ∧
    List.isPrefixOf
      (stC3c.queued_subscriptions.map (fun p => Event.send (WireMsg.subscribeMsg p.1)))
      ((runConnection stC3c []).2) = false := by
  decide

/-- Claim C3 (amended): when no queued subscription conflicts with the
exclusivity rule at replay time (so the replay completes), a (re)connection
sends every buffered subscription to the venue in exactly submission
order, and all of these sends precede every inbound-frame dispatch of the
connection; if the replay raises, the already-replayed prefix was sent in
order and no inbound frame is dispatched at all. -/
theorem queued_replay_order (st : WSState) (frames : List WsMsg)
    (hok : (replay { st with ws_ready := true } st.queued_subscriptions).2.2 = true) :
    ∃ ds, (runConnection st frames).2 =
      st.queued_subscriptions.map (fun p => Event.send (WireMsg.subscribeMsg p.1)) ++ ds ∧
      ∀ e ∈ ds, ∃ i c, e = Event.dispatch i c := by
  have h1 : ({ st with ws_ready := true } : WSState).ws_ready = true := rfl
  obtain ⟨hsend, _, _⟩ := replay_ok_spec st.queued_subscriptions { st with ws_ready := true }
    h1 hok
  refine ⟨frames.flatMap (fun m => on_message
    { (replay { st with ws_ready := true } st.queued_subscriptions).1 with
      queued_subscriptions := [] } m), ?_, ?_⟩
  · simp only [runConnection, hok, if_true]
    rw [hsend]
  · intro e he
    rcases List.mem_flatMap.mp he with ⟨m, _, hem⟩
    exact on_message_dispatch _ m e hem

/-- Claim C3 witness: two distinct subscriptions queued while disconnected
replay in order on reconnect, before the book frame is dispatched. -/
theorem queued_replay_order_witness :
    ∃ ds, (runConnection stC3w [WsMsg.l2Book "ETH", WsMsg.pong]).2 =
      stC3w.queued_subscriptions.map (fun p => Event.send (WireMsg.subscribeMsg p.1)) ++ ds ∧
      ∀ e ∈ ds, ∃ i c, e = Event.dispatch i c :=
  queued_replay_order stC3w [WsMsg.l2Book "ETH", WsMsg.pong] rfl

/-- Claim C10 witness: a connected state with two registrations under
`trades:eth`; removing id 1 keeps id 2 and sends no frame. -/
theorem unsubscribe_connected_spec_witness :
    (∃ b, (unsubscribe stC10w (Subscription.trades "ETH") 1).result = Except.ok b ∧
      (b = true ↔ ∃ a ∈ getActive stC10w (subscription_to_identifier
        (Subscription.trades "ETH")), a.subscription_id = 1)) ∧
    getActive (unsubscribe stC10w (Subscription.trades "ETH") 1).state
        (subscription_to_identifier (Subscription.trades "ETH")) =
      (getActive stC10w (subscription_to_identifier (Subscription.trades "ETH"))).filter
        (fun a => a.subscription_id != 1) ∧
    ((unsubscribe stC10w (Subscription.trades "ETH") 1).sent =
      if ((getActive stC10w (subscription_to_identifier (Subscription.trades "ETH"))).filter
          (fun a => a.subscription_id != 1)).isEmpty
      then [WireMsg.unsubscribeMsg (Subscription.trades "ETH")] else []) :=
  unsubscribe_connected_spec stC10w (Subscription.trades "ETH") 1 rfl

end WS

namespace Api

/-- Claim C5, counterexample to the claim as stated: the body of this 422
response is valid JSON (the empty object), yet `post` raises KeyError at
`err["code"]` rather than a client error carrying code and msg. -/
theorem post_json_without_code_not_client_error :
    loads "\x7b\x7d" = some (PyVal.obj []) ∧
    post ⟨422, "\x7b\x7d"⟩ = PostResult.keyError "code" :=
  ⟨rfl, rfl⟩

/-- Claim C5 (amended): status below 400 returns the JSON-decoded body,
with a malformed body returning the structured unparseable-error value
rather than raising; status 400-499 raises a client error carrying the
venue's code and msg when the body decodes to a JSON object containing
both keys (a JSON object body lacking them raises a key-lookup error
instead, and other non-null JSON bodies an attribute error), and the raw
body as its message when the body is not valid JSON or is JSON null;
status 500 and above raises a server error carrying the status and raw
body. -/
theorem post_classification :
    (∀ (resp : HttpResponse) (v : PyVal), resp.status < 400 → loads resp.body = some v →
      post resp = PostResult.ok v) ∧
    (∀ resp : HttpResponse, resp.status < 400 → loads resp.body = none →
      post resp =
        PostResult.ok (.obj [("error", .str ("Could not parse JSON: " ++ resp.body))])) ∧
    (∀ (resp : HttpResponse) (kvs : List (String × PyVal)) (code msg : PyVal),
      400 ≤ resp.status → resp.status < 500 → loads resp.body = some (.obj kvs) →
      lookupKey kvs "code" = some code → lookupKey kvs "msg" = some msg →
      post resp = PostResult.clientError resp.status (some code) msg (lookupKey kvs "data")) ∧
    (∀ resp : HttpResponse, 400 ≤ resp.status → resp.status < 500 →
      (loads resp.body = none ∨ loads resp.body = some .null) →
      post resp = PostResult.clientError resp.status none (.str resp.body) none) ∧
    (∀ resp : HttpResponse, 500 ≤ resp.status →
      post resp = PostResult.serverError resp.status resp.body) := by
  refine ⟨?_, ?_, ?_, ?_, ?_⟩
  · intro resp v h hl
    simp [post, h, hl]
  · intro resp h hl
    simp [post, h, hl]
  · intro resp kvs code msg h4 h5 hl hc hm
    have h4' : ¬ resp.status < 400 := by omega
    simp [post, h4', h5, hl, hc, hm]
  · intro resp h4 h5 hl
    have h4' : ¬ resp.status < 400 := by omega
    rcases hl with hl | hl <;> simp [post, h4', h5, hl]
  · intro resp h5
    have h4' : ¬ resp.status < 400 := by omega
    have h5' : ¬ resp.status < 500 := by omega
    simp [post, h4', h5']

/-- Claim C5 witness: the spec's 422 bad-nonce scenario surfaces as a
client error with code "91" and message "bad nonce", and a 503 with a
plain body surfaces as a server error. -/
theorem post_classification_witness :
    post ⟨422, "\x7b\"code\":\"91\",\"msg\":\"bad nonce\"\x7d"⟩ =
      PostResult.clientError 422 (some (PyVal.str "91")) (PyVal.str "bad nonce") none ∧
    post ⟨503, "oops"⟩ = PostResult.serverError 503 "oops" :=
  ⟨post_classification.2.2.1 ⟨422, "\x7b\"code\":\"91\",\"msg\":\"bad nonce\"\x7d"⟩
      [("code", .str "91"), ("msg", .str "bad nonce")] (.str "91") (.str "bad nonce")
      (by decide) (by decide) rfl rfl rfl,
   post_classification.2.2.2.2 ⟨503, "oops"⟩ (by decide)⟩

end Api

namespace HL

/-- Claim C6: the order-book normalizer maps levels index 0 to bids and 1
to asks, parsing px, sz and n of every level; and whenever the levels
array is missing or not exactly two elements, both sides come back as
empty lists with no exception, the contract and timestamp still filled
in. -/
theorem orderbook_normalization :
    (∀ (lev : String → Int) (d : L2Data) (bids asks : List WireLevel)
      (bl al : List BookLevel), d.levels = some [bids, asks] →
      parseLevels bids = some bl → parseLevels asks = some al →
      format_orderbook_data lev d =
        some ⟨⟨d.coin, "PERP", "HYPERLIQUID", lev d.coin, "USD"⟩, d.time, bl, al⟩) ∧
    (∀ (lev : String → Int) (d : L2Data),
      (∀ ls, d.levels = some ls → ls.length ≠ 2) →
      format_orderbook_data lev d =
        some ⟨⟨d.coin, "PERP", "HYPERLIQUID", lev d.coin, "USD"⟩, d.time, [], []⟩) := by
  constructor
  · intro lev d bids asks bl al hl hb ha
    simp [format_orderbook_data, hl, hb, ha]
  · intro lev d hshape
    rcases hd : d.levels with _ | ls
    · simp [format_orderbook_data, hd]
    · rcases ls with _ | ⟨x, _ | ⟨y, _ | ⟨z, rest⟩⟩⟩
      · simp [format_orderbook_data, hd]
      · simp [format_orderbook_data, hd]
      · exact absurd (hshape [x, y] hd) (by simp)
      · simp [format_orderbook_data, hd]

/-- Claim C6 witness: the ETH frame of the spec's scenario 6 normalizes to
one bid (price 3000, qty 1.5, 2 orders) and one ask (price 3001, qty 0.8,
1 order); a three-element levels array yields empty books without
raising. -/
theorem orderbook_normalization_witness :
    format_orderbook_data levETH ethFrame =
      some ⟨⟨"ETH", "PERP", "HYPERLIQUID", 50, "USD"⟩, 1700,
        [⟨⟨3000, 1⟩, ⟨15, 10⟩, 2⟩], [⟨⟨3001, 1⟩, ⟨8, 10⟩, 1⟩]⟩ ∧
    format_orderbook_data levETH badFrame =
      some ⟨⟨"ETH", "PERP", "HYPERLIQUID", 50, "USD"⟩, 1700, [], []⟩ :=
  ⟨orderbook_normalization.1 levETH ethFrame [⟨"3000", "1.5", 2⟩] [⟨"3001", "0.8", 1⟩]
      [⟨⟨3000, 1⟩, ⟨15, 10⟩, 2⟩] [⟨⟨3001, 1⟩, ⟨8, 10⟩, 1⟩] rfl (by decide) (by decide),
   orderbook_normalization.2 levETH badFrame (by intro ls h; cases h; decide)⟩

end HL

namespace DB

/-- Claim C7: inserting the same trade record twice is idempotent — with
the record's key fresh in the table, the first insert appends exactly one
row, the second is a silent no-op, and the single stored row under that
key is the first-written one. -/
theorem trade_upsert_idempotent (tbl : List TradeRow) (cid : Nat) (rec : TradeRec)
    (hfresh : ∀ q ∈ tbl, tradeKeyEq q (tradeRowOfRec cid rec) = false) :
    insertTradeRow tbl (tradeRowOfRec cid rec) = tbl ++ [tradeRowOfRec cid rec] ∧
    insertTradeRow (insertTradeRow tbl (tradeRowOfRec cid rec)) (tradeRowOfRec cid rec) =
      insertTradeRow tbl (tradeRowOfRec cid rec) ∧
    (insertTradeRow tbl (tradeRowOfRec cid rec)).filter
      (fun q => tradeKeyEq q (tradeRowOfRec cid rec)) = [tradeRowOfRec cid rec] := by
  set r := tradeRowOfRec cid rec with hr
  have hany : tbl.any (fun q => tradeKeyEq q r) = false := by
    rw [List.any_eq_false]
    intro q hq
    simp [hfresh q hq]
  have hrefl : tradeKeyEq r r = true := by
    simp [tradeKeyEq, PyFloat.valEq]
  have h1 : insertTradeRow tbl r = tbl ++ [r] := by simp [insertTradeRow, hany]
  have h2 : insertTradeRow (tbl ++ [r]) r = tbl ++ [r] := by
    have hany2 : (tbl ++ [r]).any (fun q => tradeKeyEq q r) = true := by
      simp [List.any_append, hrefl]
    simp [insertTradeRow, hany2]
  refine ⟨h1, by rw [h1, h2], ?_⟩
  rw [h1, List.filter_append]
  have hnil : tbl.filter (fun q => tradeKeyEq q r) = [] := by
    rw [List.filter_eq_nil_iff]
    intro q hq
    simp [hfresh q hq]
  simp [hnil, hrefl]

/-- Claim C7 witness: the idempotence theorem applied to an empty table
and a concrete trade record. -/
theorem trade_upsert_idempotent_witness :
    insertTradeRow [] (tradeRowOfRec 7 c7rec) = [] ++ [tradeRowOfRec 7 c7rec] ∧
    insertTradeRow (insertTradeRow [] (tradeRowOfRec 7 c7rec)) (tradeRowOfRec 7 c7rec) =
      insertTradeRow [] (tradeRowOfRec 7 c7rec) ∧
    (insertTradeRow [] (tradeRowOfRec 7 c7rec)).filter
      (fun q => tradeKeyEq q (tradeRowOfRec 7 c7rec)) = [tradeRowOfRec 7 c7rec] :=
  trade_upsert_idempotent [] 7 c7rec (fun q hq => absurd hq (List.not_mem_nil q))

/-- Claim C2, counterexample to the claim as stated: after only the first
t=100 update — before the t=200 update exists — the durable candle table
already contains the t=100 bar, because a single-bar window is written
whole.  The claim asserts the write happens only after the t=200 update
arrives. -/
theorem candle_written_before_next_bar :
    c2b1.time = 100 ∧
    (candleStep 7 ([], []) c2b1).2 = [candleRowOfBar 7 c2b1] ∧
    (candleStep 7 ([], []) c2b1).2 ≠ [] := by
  refine ⟨rfl, rfl, by decide⟩

/-- Claim C2 (amended): under the update sequence [t=100 fresh, t=100
revised, t=200 new], only the t=100 bar is ever written durably, but it is
written as soon as the first update arrives (a single-bar window is
treated as closed); the revision and the t=200 update change nothing — the
stored row keeps the first-received values and the t=200 bar is withheld
as still open. -/
theorem candle_window_writes (cid : Nat) (b1 b2 b3 : HL.Bar)
    (h1 : b1.time = 100) (h2 : b2.time = 100) (h3 : b3.time = 200) :
    candleStep cid ([], []) b1 = ([b1], [candleRowOfBar cid b1]) ∧
    candleStep cid ([b1], [candleRowOfBar cid b1]) b2 = ([b2], [candleRowOfBar cid b1]) ∧
    candleStep cid ([b2], [candleRowOfBar cid b1]) b3 =
      ([b2, b3], [candleRowOfBar cid b1]) := by
  have key12 : candleKeyEq (candleRowOfBar cid b1) (candleRowOfBar cid b2) = true := by
    simp [candleKeyEq, candleRowOfBar, PyFloat.valEq, h1, h2]
  have m1 : HL.mergeCandle [] b1 = [b1] := by simp [HL.mergeCandle]
  have m2 : HL.mergeCandle [b1] b2 = [b2] := by simp [HL.mergeCandle, h1, h2]
  have m3 : HL.mergeCandle [b2] b3 = [b2, b3] := by simp [HL.mergeCandle, h2, h3]
  refine ⟨?_, ?_, ?_⟩
  · simp [candleStep, m1, insert_candles, completedBars, insertCandleRow]
  · simp [candleStep, m2, insert_candles, completedBars, insertCandleRow, key12]
  · simp [candleStep, m3, insert_candles, completedBars, insertCandleRow, key12]

lemma task_idx_lt {l : List Task} {i : Nat} {t : Task} (h : l[i]? = some t) :
    i < l.length :=
  (List.getElem?_eq_some.mp h).1

lemma set_get_self {l : List Task} {i : Nat} {t : Task} (t' : Task) (h : l[i]? = some t) :
    (l.set i t')[i]? = some t' := by
  simp [List.getElem?_set, task_idx_lt h]

lemma set_get_ne {l : List Task} {i : Nat} (j : Nat) (t' : Task) (h : j ≠ i) :
    (l.set i t')[j]? = l[j]? := by
  simp [List.getElem?_set, Ne.symm h]

/-- Indexed task properties survive a `set` when they hold off the written
index and for the written task. -/
lemma forall_tasks_set {P : Nat → Task → Prop} {l : List Task} {i : Nat} {t : Task}
    (t' : Task) (hti : l[i]? = some t)
    (hall : ∀ (j : Nat) (u : Task), j ≠ i → l[j]? = some u → P j u) (hnew : P i t') :
    ∀ (j : Nat) (u : Task), (l.set i t')[j]? = some u → P j u := by
  intro j u hj
  by_cases hji : j = i
  · subst hji
    rw [set_get_self t' hti] at hj
    injection hj with hj
    subst hj
    exact hnew
  · rw [set_get_ne j t' hji] at hj
    exact hall j u hji hj

lemma step_inv (ck : CKey) (qk : QKey) (hr : rowMatch qk qk = true) {st st2 : MState}
    {i : Nat} (hinv : Inv ck qk st) (h : step ck qk st i = some st2) : Inv ck qk st2 := by
  obtain ⟨ha, hb, hc, hd, he, hf⟩ := hinv
  unfold step at h
  cases hti : st.tasks[i]? with
  | none => rw [hti] at h; dsimp only at h; exact absurd h (by simp)
  | some t =>
    rw [hti] at h
    dsimp only at h
    cases hpc : t.pc with
    | checkCache =>
      rw [hpc] at h
      dsimp only at h
      cases hcl : cacheLookup st.cache ck with
      | some v =>
        rw [hcl] at h
        dsimp only at h
        injection h with h2
        subst h2
        refine ⟨ha, hb, ?_, ?_, ?_, hf⟩
        · exact forall_tasks_set _ hti (fun j u _ hj => hc j u hj)
            (by intro hcr; simp [InCrit] at hcr)
        · exact forall_tasks_set _ hti (fun j u _ hj => hd j u hj)
            (by intro hcr; simp at hcr)
        · exact forall_tasks_set _ hti (fun j u _ hj => he j u hj)
            (fun _ => ⟨v, rfl, hf v hcl⟩)
      | none =>
        rw [hcl] at h
        dsimp only at h
        injection h with h2
        subst h2
        refine ⟨ha, hb, ?_, ?_, ?_, hf⟩
        · exact forall_tasks_set _ hti (fun j u _ hj => hc j u hj)
            (by intro hcr; simp [InCrit] at hcr)
        · exact forall_tasks_set _ hti (fun j u _ hj => hd j u hj)
            (by intro hcr; simp at hcr)
        · exact forall_tasks_set _ hti (fun j u _ hj => he j u hj)
            (by intro hps; simp [PostSel] at hps)
    | acquireLock =>
      rw [hpc] at h
      dsimp only at h
      cases hlock : st.lockHeld with
      | some w => rw [hlock] at h; dsimp only at h; exact absurd h (by simp)
      | none =>
        rw [hlock] at h
        dsimp only at h
        injection h with h2
        subst h2
        refine ⟨ha, hb, ?_, ?_, ?_, hf⟩
        · refine forall_tasks_set _ hti (fun j u _ hj hcr => ?_) (fun _ => rfl)
          have := hc j u hj hcr
          rw [hlock] at this
          exact absurd this (by simp)
        · exact forall_tasks_set _ hti (fun j u _ hj => hd j u hj)
            (by intro hcr; simp at hcr)
        · exact forall_tasks_set _ hti (fun j u _ hj => he j u hj)
            (by intro hps; simp [PostSel] at hps)
    | selectRow =>
      rw [hpc] at h
      dsimp only at h
      have hlocki : st.lockHeld = some i := hc i t hti (Or.inl hpc)
      cases hfind : findRow st.db qk with
      | some v =>
        rw [hfind] at h
        dsimp only at h
        injection h with h2
        subst h2
        have hrow : (v, qk) ∈ st.db := by
          unfold findRow at hfind
          cases hfr : st.db.find? (fun r => rowMatch r.2 qk) with
          | none => rw [hfr] at hfind; exact absurd hfind (by simp)
          | some r =>
            rw [hfr] at hfind
            dsimp only [Option.map] at hfind
            injection hfind with hfind
            have hmem := List.mem_of_find?_eq_some hfr
            have hq := (ha r hmem).1
            have : r = (v, qk) := by
              cases r
              simp_all
            rw [this] at hmem
            exact hmem
        refine ⟨ha, hb, ?_, ?_, ?_, hf⟩
        · exact forall_tasks_set _ hti (fun j u _ hj => hc j u hj) (fun _ => hlocki)
        · exact forall_tasks_set _ hti (fun j u _ hj => hd j u hj)
            (by intro hcr; simp at hcr)
        · exact forall_tasks_set _ hti (fun j u _ hj => he j u hj)
            (fun _ => ⟨v, rfl, hrow⟩)
      | none =>
        rw [hfind] at h
        dsimp only at h
        injection h with h2
        subst h2
        have hdbnil : st.db = [] := by
          cases hdb : st.db with
          | nil => rfl
          | cons r rest =>
            exfalso
            have hq := (ha r (by rw [hdb]; exact List.mem_cons_self r rest)).1
            unfold findRow at hfind
            rw [hdb] at hfind
            have hfn : List.find? (fun x => rowMatch x.2 qk) (r :: rest) = none := by
              cases hx : List.find? (fun x => rowMatch x.2 qk) (r :: rest) with
              | none => rfl
              | some y =>
                rw [hx] at hfind
                dsimp only [Option.map] at hfind
                exact absurd hfind (by simp)
            have hnr := List.find?_eq_none.mp hfn r (List.mem_cons_self r rest)
            exact hnr (by simpa [hq] using hr)
        refine ⟨ha, hb, ?_, ?_, ?_, hf⟩
        · exact forall_tasks_set _ hti (fun j u _ hj => hc j u hj) (fun _ => hlocki)
        · exact forall_tasks_set _ hti (fun j u _ hj => hd j u hj) (fun _ => hdbnil)
        · exact forall_tasks_set _ hti (fun j u _ hj => he j u hj)
            (by intro hps; simp [PostSel] at hps)
    | insertRow =>
      rw [hpc] at h
      dsimp only at h
      injection h with h2
      subst h2
      have hlocki : st.lockHeld = some i := hc i t hti (Or.inr (Or.inl hpc))
      have hdbnil : st.db = [] := hd i t hti hpc
      refine ⟨?_, ?_, ?_, ?_, ?_, ?_⟩
      · intro r hrmem
        rw [hdbnil] at hrmem
        simp only [List.nil_append, List.mem_singleton] at hrmem
        subst hrmem
        exact ⟨rfl, Nat.lt_succ_self st.nextId⟩
      · rw [hdbnil]
        simp
      · exact forall_tasks_set _ hti (fun j u _ hj => hc j u hj) (fun _ => hlocki)
      · refine forall_tasks_set _ hti (fun j u hji hj hins => ?_)
          (by intro hcr; simp at hcr)
        have := hc j u hj (Or.inr (Or.inl hins))
        rw [hlocki] at this
        injection this with this
        exact absurd this.symm hji
      · refine forall_tasks_set _ hti (fun j u _ hj hps => ?_)
          (fun _ => ⟨st.nextId, rfl, by simp⟩)
        obtain ⟨v, hv, hm⟩ := he j u hj hps
        exact ⟨v, hv, List.mem_append_left _ hm⟩
      · intro v hv
        exact List.mem_append_left _ (hf v hv)
    | commitRelease =>
      rw [hpc] at h
      dsimp only at h
      injection h with h2
      subst h2
      have hlocki : st.lockHeld = some i := hc i t hti (Or.inr (Or.inr hpc))
      refine ⟨ha, hb, ?_, ?_, ?_, hf⟩
      · refine forall_tasks_set _ hti (fun j u hji hj hcr => ?_)
          (by intro hcr; simp [InCrit] at hcr)
        have := hc j u hj hcr
        rw [hlocki] at this
        injection this with this
        exact absurd this.symm hji
      · exact forall_tasks_set _ hti (fun j u _ hj => hd j u hj)
          (by intro hcr; simp at hcr)
      · exact forall_tasks_set _ hti (fun j u _ hj => he j u hj)
          (fun _ => he i t hti (Or.inl hpc))
    | writeCache =>
      rw [hpc] at h
      dsimp only at h
      cases hres : t.res with
      | none => rw [hres] at h; dsimp only at h; exact absurd h (by simp)
      | some v =>
        rw [hres] at h
        dsimp only at h
        injection h with h2
        subst h2
        have hmem : (v, qk) ∈ st.db := by
          obtain ⟨w, hw, hm⟩ := he i t hti (Or.inr (Or.inl hpc))
          rw [hres] at hw
          injection hw with hw
          rw [← hw] at hm
          exact hm
        refine ⟨ha, hb, ?_, ?_, ?_, ?_⟩
        · exact forall_tasks_set _ hti (fun j u _ hj => hc j u hj)
            (by intro hcr; simp [InCrit] at hcr)
        · exact forall_tasks_set _ hti (fun j u _ hj => hd j u hj)
            (by intro hcr; simp at hcr)
        · exact forall_tasks_set _ hti (fun j u _ hj => he j u hj)
            (fun _ => ⟨v, rfl, hmem⟩)
        · intro w hw
          have : cacheLookup ((ck, v) :: st.cache) ck = some v := by
            simp [cacheLookup]
          rw [this] at hw
          injection hw with hw
          rw [hw] at hmem
          exact hmem
    | done =>
      rw [hpc] at h
      dsimp only at h
      exact absurd h (by simp)

lemma exec_inv (ck : CKey) (qk : QKey) (hr : rowMatch qk qk = true) :
    ∀ (sched : List Nat) (st st2 : MState), Inv ck qk st →
      exec ck qk st sched = some st2 → Inv ck qk st2 := by
  intro sched
  induction sched with
  | nil =>
    intro st st2 hinv hex
    unfold exec at hex
    injection hex with hex
    rw [← hex]
    exact hinv
  | cons j rest ih =>
    intro st st2 hinv hex
    unfold exec at hex
    cases hs : step ck qk st j with
    | none => rw [hs] at hex; exact absurd hex (by simp)
    | some stM =>
      rw [hs] at hex
      exact ih stM st2 (step_inv ck qk hr hinv hs) hex

lemma inv_init (ck : CKey) (qk : QKey) (n : Nat) : Inv ck qk (initState n) := by
  have htask : ∀ (i : Nat) (t : Task), (initState n).tasks[i]? = some t →
      t = ⟨Pc.checkCache, none⟩ := by
    intro i t h
    simp only [initState] at h
    rw [List.getElem?_replicate] at h
    split at h
    · injection h with h; exact h.symm
    · exact absurd h (by simp)
  refine ⟨?_, ?_, ?_, ?_, ?_, ?_⟩
  · intro r hr; simp [initState] at hr
  · simp [initState]
  · intro i t h hcr
    rw [htask i t h] at hcr
    simp [InCrit] at hcr
  · intro i t h hins
    rw [htask i t h] at hins
    simp at hins
  · intro i t h hps
    rw [htask i t h] at hps
    simp [PostSel] at hps
  · intro v hv
    simp [initState, cacheLookup] at hv

/-- Every enabled step rewrites the task list at the chosen index only. -/
lemma step_tasks_shape (ck : CKey) (qk : QKey) {st st2 : MState} {j : Nat}
    (h : step ck qk st j = some st2) :
    ∃ u, st2.tasks = st.tasks.set j u := by
  unfold step at h
  cases htj : st.tasks[j]? with
  | none => rw [htj] at h; dsimp only at h; exact absurd h (by simp)
  | some t =>
    rw [htj] at h
    dsimp only at h
    cases hpc : t.pc <;> rw [hpc] at h <;> dsimp only at h
    case checkCache =>
      cases hcl : cacheLookup st.cache ck <;> rw [hcl] at h <;> dsimp only at h <;>
        (injection h with h2; subst h2; exact ⟨_, rfl⟩)
    case acquireLock =>
      cases hlock : st.lockHeld <;> rw [hlock] at h <;> dsimp only at h
      · injection h with h2; subst h2; exact ⟨_, rfl⟩
      · exact absurd h (by simp)
    case selectRow =>
      cases hfind : findRow st.db qk <;> rw [hfind] at h <;> dsimp only at h <;>
        (injection h with h2; subst h2; exact ⟨_, rfl⟩)
    case insertRow =>
      injection h with h2; subst h2; exact ⟨_, rfl⟩
    case commitRelease =>
      injection h with h2; subst h2; exact ⟨_, rfl⟩
    case writeCache =>
      cases hres : t.res <;> rw [hres] at h <;> dsimp only at h
      · exact absurd h (by simp)
      · injection h with h2; subst h2; exact ⟨_, rfl⟩
    case done =>
      exact absurd h (by simp)

lemma step_tasks_len (ck : CKey) (qk : QKey) {st st2 : MState} {j : Nat}
    (h : step ck qk st j = some st2) : st2.tasks.length = st.tasks.length := by
  obtain ⟨u, hu⟩ := step_tasks_shape ck qk h
  rw [hu]
  simp

lemma exec_tasks_len (ck : CKey) (qk : QKey) :
    ∀ (sched : List Nat) (st st2 : MState), exec ck qk st sched = some st2 →
      st2.tasks.length = st.tasks.length := by
  intro sched
  induction sched with
  | nil =>
    intro st st2 hex
    unfold exec at hex
    injection hex with hex
    rw [← hex]
  | cons j rest ih =>
    intro st st2 hex
    unfold exec at hex
    cases hs : step ck qk st j with
    | none => rw [hs] at hex; exact absurd hex (by simp)
    | some stM =>
      rw [hs] at hex
      rw [ih stM st2 hex, step_tasks_len ck qk hs]

/-- Once the cache holds the key, it keeps holding it. -/
lemma step_cache_mono (ck : CKey) (qk : QKey) {st st2 : MState} {j : Nat}
    (h : step ck qk st j = some st2)
    (hc : (cacheLookup st.cache ck).isSome = true) :
    (cacheLookup st2.cache ck).isSome = true := by
  unfold step at h
  cases htj : st.tasks[j]? with
  | none => rw [htj] at h; dsimp only at h; exact absurd h (by simp)
  | some t =>
    rw [htj] at h
    dsimp only at h
    cases hpc : t.pc <;> rw [hpc] at h <;> dsimp only at h
    case checkCache =>
      cases hcl : cacheLookup st.cache ck <;> rw [hcl] at h <;> dsimp only at h <;>
        (injection h with h2; subst h2; exact hc)
    case acquireLock =>
      cases hlock : st.lockHeld <;> rw [hlock] at h <;> dsimp only at h
      · injection h with h2; subst h2; exact hc
      · exact absurd h (by simp)
    case selectRow =>
      cases hfind : findRow st.db qk <;> rw [hfind] at h <;> dsimp only at h <;>
        (injection h with h2; subst h2; exact hc)
    case insertRow =>
      injection h with h2; subst h2; exact hc
    case commitRelease =>
      injection h with h2; subst h2; exact hc
    case writeCache =>
      cases hres : t.res <;> rw [hres] at h <;> dsimp only at h
      · exact absurd h (by simp)
      · injection h with h2
        subst h2
        simp [cacheLookup]
    case done =>
      exact absurd h (by simp)

/-- A task still at its cache check in a state whose cache already holds
the key can only move straight to done; it never reaches the lock. -/
lemma step_task_stable (ck : CKey) (qk : QKey) {st st2 : MState} {i j : Nat} {tA : Task}
    (h : step ck qk st j = some st2)
    (hcache : (cacheLookup st.cache ck).isSome = true)
    (hti : st.tasks[i]? = some tA) (hpc : tA.pc = Pc.checkCache ∨ tA.pc = Pc.done) :
    ∃ tB, st2.tasks[i]? = some tB ∧ (tB.pc = Pc.checkCache ∨ tB.pc = Pc.done) := by
  by_cases hji : j = i
  · subst hji
    unfold step at h
    rw [hti] at h
    dsimp only at h
    rcases hpc with hpc | hpc <;> rw [hpc] at h <;> dsimp only at h
    · cases hcl : cacheLookup st.cache ck with
      | none => rw [hcl] at hcache; exact absurd hcache (by simp)
      | some v =>
        rw [hcl] at h
        dsimp only at h
        injection h with h2
        subst h2
        exact ⟨⟨Pc.done, some v⟩, set_get_self _ hti, Or.inr rfl⟩
    · exact absurd h (by simp)
  · obtain ⟨u, hu⟩ := step_tasks_shape ck qk h
    refine ⟨tA, ?_, hpc⟩
    rw [hu, set_get_ne i u (Ne.symm hji)]
    exact hti

/-- From any state whose cache already holds the key, a task still at its
cache check can only ever move straight to done under any schedule. -/
lemma cache_checkCache_stays (ck : CKey) (qk : QKey) :
    ∀ (sched : List Nat) (stA stB : MState) (i : Nat),
      (cacheLookup stA.cache ck).isSome = true →
      (∃ tA, stA.tasks[i]? = some tA ∧ (tA.pc = Pc.checkCache ∨ tA.pc = Pc.done)) →
      exec ck qk stA sched = some stB →
      ∃ tB, stB.tasks[i]? = some tB ∧ (tB.pc = Pc.checkCache ∨ tB.pc = Pc.done) := by
  intro sched
  induction sched with
  | nil =>
    intro stA stB i h1 h2 hex
    unfold exec at hex
    injection hex with hex
    rw [← hex]
    exact h2
  | cons j rest ih =>
    intro stA stB i h1 h2 hex
    unfold exec at hex
    cases hs : step ck qk stA j with
    | none => rw [hs] at hex; exact absurd hex (by simp)
    | some stM =>
      rw [hs] at hex
      obtain ⟨tA, hti, hpc⟩ := h2
      exact ih stM stB i (step_cache_mono ck qk hs h1)
        (step_task_stable ck qk hs h1 hti hpc) hex

/-- Claim C1 (amended): for an identity tuple whose symbol, security
type, exchange and currency are non-NULL (equivalently, one the SQL lookup
can re-find: `rowMatch qk qk`), any fully-run interleaving of N fresh
concurrent calls creates exactly one durable row and every call returns
its id; and once the in-process cache holds the tuple — which happens when
the first resolving call writes it, just after its transaction commits — a
call still at its cache check is served from the cache and never reaches
the advisory lock. -/
theorem contract_resolution_unique (d : ContractData)
    (hr : rowMatch (queryKey d) (queryKey d) = true) :
    (∀ (n : Nat), 1 ≤ n → ∀ (sched : List Nat) (st : MState),
      exec (cacheKey d) (queryKey d) (initState n) sched = some st →
      (∀ t ∈ st.tasks, t.pc = Pc.done) →
      ∃ v, st.db = [(v, queryKey d)] ∧ ∀ t ∈ st.tasks, t.res = some v) ∧
    (∀ (stA : MState) (sched : List Nat) (stB : MState) (i : Nat) (tA : Task),
      (cacheLookup stA.cache (cacheKey d)).isSome = true →
      stA.tasks[i]? = some tA → (tA.pc = Pc.checkCache ∨ tA.pc = Pc.done) →
      exec (cacheKey d) (queryKey d) stA sched = some stB →
      ∃ tB, stB.tasks[i]? = some tB ∧ (tB.pc = Pc.checkCache ∨ tB.pc = Pc.done)) := by
  constructor
  · intro n hn sched st hex hdone
    obtain ⟨ha, hb, hc, hd2, he, hf⟩ :=
      exec_inv (cacheKey d) (queryKey d) hr sched (initState n) st (inv_init _ _ n) hex
    have hlen : st.tasks.length = n := by
      rw [exec_tasks_len _ _ sched _ _ hex]
      simp [initState]
    have h0 : ∃ t0, st.tasks[0]? = some t0 := by
      cases hts : st.tasks with
      | nil => rw [hts] at hlen; simp at hlen; omega
      | cons t0 rest => exact ⟨t0, by simp [hts]⟩
    obtain ⟨t0, ht0⟩ := h0
    have ht0mem : t0 ∈ st.tasks := by
      obtain ⟨hlt, hget⟩ := List.getElem?_eq_some.mp ht0
      exact hget ▸ List.getElem_mem hlt
    obtain ⟨v, hres0, hmem⟩ := he 0 t0 ht0 (Or.inr (Or.inr (hdone t0 ht0mem)))
    have hdb : st.db = [(v, queryKey d)] := by
      cases hdbe : st.db with
      | nil => rw [hdbe] at hmem; exact absurd hmem (List.not_mem_nil _)
      | cons r rest =>
        rw [hdbe] at hb
        simp only [List.length_cons] at hb
        have hrest : rest = [] := List.eq_nil_of_length_eq_zero (by omega)
        subst hrest
        rw [hdbe] at hmem
        simp only [List.mem_singleton] at hmem
        rw [← hmem]
    refine ⟨v, hdb, ?_⟩
    intro t htmem
    obtain ⟨it, hit⟩ := List.mem_iff_getElem?.mp htmem
    obtain ⟨w, hwres, hwmem⟩ := he it t hit (Or.inr (Or.inr (hdone t htmem)))
    rw [hdb] at hwmem
    simp only [List.mem_singleton, Prod.mk.injEq] at hwmem
    rw [hwres, hwmem.1]
  · intro stA sched stB i tA h1 hti hpc hex
    exact cache_checkCache_stays (cacheKey d) (queryKey d) sched stA stB i h1
      ⟨tA, hti, hpc⟩ hex

/-- Claim C1 witness: two fresh sequential calls on a fully-populated
tuple end with one durable row and both ids equal; from the state where
call 0 has finished (cache written), call 1 resolves without ever leaving
the cache-check/done points. -/
theorem contract_resolution_unique_witness :
    (∃ v, c1final.db = [(v, queryKey c1full)] ∧ ∀ t ∈ c1final.tasks, t.res = some v) ∧
    (∃ tB, c1final.tasks[1]? = some tB ∧ (tB.pc = Pc.checkCache ∨ tB.pc = Pc.done)) :=
  ⟨(contract_resolution_unique c1full (by decide)).1 2 (by decide) c1sSeq c1final rfl
      (by decide),
   (contract_resolution_unique c1full (by decide)).2 c1mid [1] c1final 1
      ⟨Pc.checkCache, none⟩ (by decide) (by decide) (Or.inl rfl) rfl⟩

/-- Claim C9: the stored news id is CPython's per-process-salted string
hash of the joined fields (db.py:272), not the run-stable digest the file
itself defines for content hashes — two runs whose interpreter hash keys
differ derive different ids from the same (source, category, item,
timestamp).  The key pair is drawn at random at interpreter startup, so
this happens between ordinary runs. -/
theorem news_id_run_dependent :
    news_id 0 0 "trading-economics" "calendar" "gdp" "2026-10-12 00:00:00" ≠
      news_id 0 1 "trading-economics" "calendar" "gdp" "2026-10-12 00:00:00" ∧
    news_id 0 0 "trading-economics" "calendar" "gdp" "2026-10-12 00:00:00" =
      -8413572008328239458 := by
  constructor
  · decide
  · decide

/-- Claim C1, counterexample to the claim as stated, in two parts.  Part
one: the lookup compares symbol, sec_type, exchange, currency and
multiplier with plain SQL `=`, which is never true on NULL, so for an
identity tuple whose currency is NULL two concurrent calls that both miss
the cache create two durable rows and return different ids (0 and 1) —
the NULL-safe comparison is applied only to expiration, right and strike.
Part two: even for a fully-populated tuple the in-process cache is only
written after the transaction commits, so a call whose cache check lands
between the first call's commit and its cache write misses the cache and
takes the named advisory lock: after schedule `c1sLock`, call 0 has
committed (its row is durable, the lock was released at commit) yet call
1 holds the lock. -/
theorem contract_resolution_claim_fails :
    ((exec (cacheKey c1null) (queryKey c1null) (initState 2) c1sNull).map
      (fun st => (st.db.length, st.tasks.map (fun t => t.res)))) =
        some (2, [some 0, some 1]) ∧
    ((exec (cacheKey c1full) (queryKey c1full) (initState 2) c1sLock).map
      (fun st => (st.lockHeld, st.tasks.map (fun t => t.pc)))) =
        some (some 1, [Pc.writeCache, Pc.selectRow]) :=
  ⟨rfl, rfl⟩

/-- Claim C2 witness: the amended theorem applied to the concrete bars of
the scenario. -/
theorem candle_window_writes_witness :
    candleStep 7 ([], []) c2b1 = ([c2b1], [candleRowOfBar 7 c2b1]) ∧
    candleStep 7 ([c2b1], [candleRowOfBar 7 c2b1]) c2b2 =
      ([c2b2], [candleRowOfBar 7 c2b1]) ∧
    candleStep 7 ([c2b2], [candleRowOfBar 7 c2b1]) c2b3 =
      ([c2b2, c2b3], [candleRowOfBar 7 c2b1]) :=
  candle_window_writes 7 c2b1 c2b2 c2b3 rfl rfl rfl

end DB

end Foggle
